import Mathlib

/-!
Verification of the Olist dashboard's table-transform and chart-construction
functions.  Each pandas pipeline is shallowly embedded: a DataFrame column is a
`List` of `Option` values (`none` = NaN/NaT), timestamps and timedeltas are
integers (seconds), money and percentages are rationals, and Python code that
can raise is embedded as a function into `Except`.

The file is organised as definitions first (faithful embeddings of the source
functions), then theorems.
-/

namespace Olist

/-! ## Definitions -/

/-! ### Generic list helpers (trapezoid rule, cumulative sums, linspace) -/

/-- Trapezoidal integral with unit spacing, as `np.trapezoid(y, dx=1)`. -/
def trapz : List ℚ → ℚ
  | [] => 0
  | [_] => 0
  | a :: b :: t => (a + b) / 2 + trapz (b :: t)

/-- Cumulative sums starting from an accumulator. -/
def cumsumFrom (acc : ℚ) : List ℚ → List ℚ
  | [] => []
  | x :: xs => (acc + x) :: cumsumFrom (acc + x) xs

/-- Cumulative sums, as `Series.cumsum()`. -/
def cumsum (l : List ℚ) : List ℚ := cumsumFrom 0 l

/-- `np.linspace(0, 100, n)`. -/
def linspace100 (n : ℕ) : List ℚ :=
  (List.range n).map (fun i => if n ≤ 1 then 0 else 100 * (i : ℚ) / ((n : ℚ) - 1))

/-- `sort_values(ascending=False)` on a numeric column. -/
def sortDescQ (l : List ℚ) : List ℚ := l.insertionSort (fun a b => b ≤ a)

/-! ### Vendor / regional concentration charts (pages 4 and 8)

`create_vendor_concentration_chart` sorts vendor totals descending, takes the
cumulative revenue percentage, and annotates the chart with
`(perfect_area - lorenz_area) / perfect_area` where both areas are unit-spaced
trapezoidal integrals and the perfect-equality line is `np.linspace(0, 100, N)`.
-/

/-- The Gini coefficient displayed by `create_vendor_concentration_chart`
(page `4_Vendor_Analysis`), computed from the `Total` column. -/
def create_vendor_concentration_gini (totals : List ℚ) : ℚ :=
  let sorted := sortDescQ totals
  let cumulative_pct := (cumsum sorted).map (fun c => c / sorted.sum * 100)
  let perfect_equality := linspace100 totals.length
  let lorenz_area := trapz cumulative_pct
  let perfect_area := trapz perfect_equality
  if perfect_area > 0 then (perfect_area - lorenz_area) / perfect_area else 0

/-- The Gini coefficient returned by `create_regional_concentration_chart`
(page `8_Geographic_Analysis`), computed from the `national_share` column
(shares already in percent, summing to 100). -/
def create_regional_concentration_gini (shares : List ℚ) : ℚ :=
  if shares.length < 2 then 0
  else
    let sorted := sortDescQ shares
    let cumulative_pct := cumsum sorted
    let perfect_equality := linspace100 shares.length
    let lorenz_area := trapz cumulative_pct
    let perfect_area := trapz perfect_equality
    if perfect_area > 0 then (perfect_area - lorenz_area) / perfect_area else 0

/-! ### pandas `pd.cut` with `include_lowest=True` over increasing bin edges -/

/-- Walk the upper edges: the value falls in interval `i` when it is at most the
`i`-th upper edge (having already exceeded all earlier ones). -/
def pdCutGo (x : ℚ) : List ℚ → ℕ → Option ℕ
  | [], _ => none
  | e :: es, i => if x ≤ e then some i else pdCutGo x es (i + 1)

/-- `pd.cut(x, bins=edges, include_lowest=True)`: `none` when the value lies
outside every interval, otherwise the interval index. The first interval is
closed on the left (`include_lowest`), the rest are left-open. -/
def pdCut (edges : List ℚ) (x : ℚ) : Option ℕ :=
  match edges with
  | [] => none
  | e0 :: rest => if x < e0 then none else pdCutGo x rest 0

/-! ### Delay analysis data preparation (page 7, `get_delay_analysis`; the same
derivations appear in page 9's `get_delivery_performance_analysis`)

Timestamps are seconds since an epoch; `none` is a missing value (`NaT`).
Subtracting timestamp columns propagates `NaT`; dividing timedeltas and
multiplying by 100 yields a float that `fillna(0)` then fixes up. -/

structure RawOrder where
  order_purchase_timestamp : Option ℤ
  order_approved_at : Option ℤ
  order_delivered_carrier_date : Option ℤ
  order_delivered_customer_date : Option ℤ
  order_estimated_delivery_date : Option ℤ
  order_status : Option String
deriving DecidableEq

/-- Elementwise subtraction of two datetime columns (`NaT` propagates). -/
def optSub : Option ℤ → Option ℤ → Option ℤ
  | some a, some b => some (a - b)
  | _, _ => none

/-- `(num / den * 100).fillna(0)`: missing operands give NaN, which `fillna`
turns into 0 (a zero denominator is likewise modelled as the filled value). -/
def pctOf : Option ℤ → Option ℤ → ℚ
  | some n, some d => if d = 0 then 0 else (n : ℚ) / (d : ℚ) * 100
  | _, _ => 0

/-- The `Net_State` lambda of `get_delay_analysis` /
`get_delivery_performance_analysis`: `'Delivered' if x == 'delivered' else
'Not_Delivered'`, with the constant default when the `order_status` column is
absent. -/
def netStateOf (has_status_col : Bool) (st : Option String) : String :=
  if has_status_col then (if st = some "delivered" then "Delivered" else "Not_Delivered")
  else "Delivered"

structure DelayRow where
  Delay : Option ℤ
  Real_Time : Option ℤ
  Site_Real_PCT : ℚ
  Seller_Real_PCT : ℚ
  Shipping_Real_PCT : ℚ
  Net_State : String
deriving DecidableEq

/-- One row of `delay_data` after the derived columns of `get_delay_analysis`
are added. -/
def mkDelayRow (has_status_col : Bool) (r : RawOrder) : DelayRow :=
  { Delay := optSub r.order_estimated_delivery_date r.order_delivered_customer_date
    Real_Time := optSub r.order_delivered_customer_date r.order_purchase_timestamp
    Site_Real_PCT := pctOf (optSub r.order_approved_at r.order_purchase_timestamp)
      (optSub r.order_delivered_customer_date r.order_purchase_timestamp)
    Seller_Real_PCT := pctOf (optSub r.order_delivered_carrier_date r.order_approved_at)
      (optSub r.order_delivered_customer_date r.order_purchase_timestamp)
    Shipping_Real_PCT := pctOf
      (optSub r.order_delivered_customer_date r.order_delivered_carrier_date)
      (optSub r.order_delivered_customer_date r.order_purchase_timestamp)
    Net_State := netStateOf has_status_col r.order_status }

def delay_data (has_status_col : Bool) (rows : List RawOrder) : List DelayRow :=
  rows.map (mkDelayRow has_status_col)

/-- `dropna(subset=['Delay', 'Site_Real_PCT', 'Seller_Real_PCT',
'Shipping_Real_PCT'])`; the percentage columns are never NaN after `fillna(0)`,
so only a missing `Delay` drops a row. -/
def delay_data_clean (has_status_col : Bool) (rows : List RawOrder) : List DelayRow :=
  (delay_data has_status_col rows).filter (fun r => r.Delay.isSome)

/-- `Delay < pd.Timedelta(0)` (false on `NaT`). -/
def isNegDelay (r : DelayRow) : Bool :=
  match r.Delay with
  | some v => decide (v < 0)
  | none => false

/-- `delayed_orders = delay_data_clean[delay_data_clean['Delay'] < pd.Timedelta(0)]`. -/
def delayed_orders (has_status_col : Bool) (rows : List RawOrder) : List DelayRow :=
  (delay_data_clean has_status_col rows).filter isNegDelay

/-- Concrete order used to instantiate the per-row theorems: estimated delivery
at second 604800, actual delivery at second 864000 (a late order). -/
def rawOrderW : RawOrder :=
  ⟨some 0, some 3600, some 7200, some 864000, some 604800, some "delivered"⟩

/-! ### `OrdersAnalyzer` (src/analysis/orders_analysis.py)

`get_delivery_performance` works on the `Net_State` and `Delay` columns only;
`get_delayed_orders_by_stage` additionally appends a `delay_days` column to its
result. -/

structure PerfRow where
  Net_State : String
  Delay : Option ℤ
deriving DecidableEq

/-- `working.dropna(subset=['Delay'])`. -/
def working_clean (rows : List PerfRow) : List PerfRow :=
  rows.filter (fun r => r.Delay.isSome)

/-- `Delay < pd.Timedelta(0)` (false on `NaT`). -/
def perfNeg (r : PerfRow) : Bool :=
  match r.Delay with
  | some v => decide (v < 0)
  | none => false

/-- `Delay > pd.Timedelta(0)` (false on `NaT`). -/
def perfPos (r : PerfRow) : Bool :=
  match r.Delay with
  | some v => decide (0 < v)
  | none => false

def delay_delivered (rows : List PerfRow) : List PerfRow :=
  (working_clean rows).filter (fun r => perfNeg r && r.Net_State == "Delivered")

def delay_not_delivered (rows : List PerfRow) : List PerfRow :=
  (working_clean rows).filter (fun r => perfNeg r && r.Net_State == "Not_Delivered")

def no_delay_delivered (rows : List PerfRow) : List PerfRow :=
  (working_clean rows).filter (fun r => perfPos r && r.Net_State == "Delivered")

def no_delay_not_delivered (rows : List PerfRow) : List PerfRow :=
  (working_clean rows).filter (fun r => perfPos r && r.Net_State == "Not_Delivered")

def perf_total_orders (rows : List PerfRow) : ℕ := (working_clean rows).length

def delivered_list (rows : List PerfRow) : List PerfRow :=
  (working_clean rows).filter (fun r => r.Net_State == "Delivered")

def perf_delivered_orders (rows : List PerfRow) : ℕ := (delivered_list rows).length

/-- `(delivered_orders / total_orders * 100) if total_orders > 0 else 0`. -/
def delivery_rate (rows : List PerfRow) : ℚ :=
  if perf_total_orders rows > 0 then
    (perf_delivered_orders rows : ℚ) / (perf_total_orders rows : ℚ) * 100
  else 0

/-- `(len(no_delay_delivered) / delivered_orders * 100) if delivered_orders > 0
else 0`. -/
def on_time_rate (rows : List PerfRow) : ℚ :=
  if perf_delivered_orders rows > 0 then
    ((no_delay_delivered rows).length : ℚ) / (perf_delivered_orders rows : ℚ) * 100
  else 0

/-- A one-row frame with a delivered, exactly-on-time order, exhibiting that
the four category subsets of `get_delivery_performance` miss `Delay == 0`. -/
def perfRowsZ : List PerfRow := [⟨"Delivered", some 0⟩]

/-- `self.orders_clean.loc[self.orders_clean['Delay'] < pd.Timedelta(0)]`. -/
def stage_delayed (rows : List PerfRow) : List PerfRow := rows.filter perfNeg

/-- The optional `Net_State` filter of `get_delayed_orders_by_stage`. -/
def stage_filtered (rows : List PerfRow) (delivery_status : String) : List PerfRow :=
  if delivery_status ≠ "All" then
    (stage_delayed rows).filter (fun r => r.Net_State == delivery_status)
  else stage_delayed rows

/-- `OrdersAnalyzer.get_delayed_orders_by_stage`: the delayed rows matching the
requested status, with a derived `delay_days` column, or an empty frame when no
rows match. -/
def get_delayed_orders_by_stage (rows : List PerfRow) (delivery_status : String) :
    List (PerfRow × Option ℚ) :=
  let delayed := stage_filtered rows delivery_status
  if delayed.isEmpty then []
  else delayed.map (fun r => (r, r.Delay.map (fun s => (s : ℚ) / 86400)))

/-! ### `OrdersAnalyzer._convert_delay_to_timedelta`

A pandas column with its dtype: `td` is timedelta64 (seconds, `none` = NaT),
`num` a numeric dtype (`none` = NaN), `obj` an object column of strings.
`pd.to_timedelta` succeeds on timedelta and numeric input and raises
`ValueError` on unparseable strings; its unit handling is abstracted to
seconds. -/

inductive PdCol
  | td (vals : List (Option ℤ))
  | num (vals : List (Option ℚ))
  | obj (vals : List (Option String))
deriving DecidableEq

inductive PyError
  | valueError
  | typeError
  | otherError
deriving DecidableEq

def PdCol.colLength : PdCol → ℕ
  | .td v => v.length
  | .num v => v.length
  | .obj v => v.length

/-- Parse one timedelta string of the modelled `"<k> days"` format. -/
def parseTimedeltaStr (s : String) : Option ℤ :=
  if s.endsWith " days" then (s.dropRight 5).toInt?.map (fun k => k * 86400) else none

def strEntryOk : Option String → Bool
  | none => true
  | some s => (parseTimedeltaStr s).isSome

/-- Converting an object column of strings: any unparseable entry raises
`ValueError`, otherwise missing entries become `NaT`. -/
def parseStrCol (v : List (Option String)) : Except PyError (List (Option ℤ)) :=
  if v.all strEntryOk then .ok (v.map (fun s => s.bind parseTimedeltaStr))
  else .error .valueError

/-- `pd.to_timedelta(col)`. -/
def to_timedelta : PdCol → Except PyError (List (Option ℤ))
  | .td v => .ok v
  | .num v => .ok (v.map (Option.map (fun q => Int.floor q)))
  | .obj v => parseStrCol v

/-- `pd.to_timedelta(col, unit='D')` on a numeric column. -/
def to_timedelta_unit_days (v : List (Option ℚ)) : List (Option ℤ) :=
  v.map (Option.map (fun q => Int.floor (q * 86400)))

/-- `col.astype(str)` (`NaN` renders as the string `"nan"`). -/
def astype_str : PdCol → List (Option String)
  | .td v => v.map (Option.map toString)
  | .num v => v.map (Option.map (fun q => toString q.num))
  | .obj v => v.map (fun s => some (s.getD "nan"))

def is_numeric_dtype : PdCol → Bool
  | .num _ => true
  | _ => false

def is_timedelta64_dtype : PdCol → Bool
  | .td _ => true
  | _ => false

def numVals : PdCol → List (Option ℚ)
  | .num v => v
  | _ => []

/-- `OrdersAnalyzer._convert_delay_to_timedelta` on one `Delay` column: try
`pd.to_timedelta`; on `ValueError`/`TypeError` retry as numeric days or as
strings; if that also fails, warn (the returned flag) and set the column to
`NaT`.  Any exception other than `ValueError`/`TypeError` from the first
attempt would propagate. -/
def convert_delay_to_timedelta (c : PdCol) : Except PyError (PdCol × Bool) :=
  if is_timedelta64_dtype c then .ok (c, false)
  else
    match to_timedelta c with
    | .ok v => .ok (.td v, false)
    | .error e =>
      if e = .valueError ∨ e = .typeError then
        match (if is_numeric_dtype c then
            (Except.ok (to_timedelta_unit_days (numVals c)) : Except PyError _)
          else parseStrCol (astype_str c)) with
        | .ok v => .ok (.td v, false)
        | .error _ => .ok (.td (List.replicate c.colLength none), true)
      else .error e

/-! ### `create_delay_heatmap`

The `delayed_orders` argument is a frame whose column set matters: the source
mutates it in place (deriving `delay_days` and appending `delay_bin`/`pct_bin`
without copying), so the embedding passes the frame state through and returns
it alongside the figure. -/

structure DORow where
  Delay : Option ℤ
  delay_days : Option ℚ
  pct : Option ℚ
  delay_bin : Option ℕ := none
  pct_bin : Option ℕ := none
deriving DecidableEq

structure DOFrame where
  hasDelay : Bool
  hasDelayDays : Bool
  hasDelayBin : Bool := false
  hasPctBin : Bool := false
  rows : List DORow
deriving DecidableEq

structure GeoPoint where
  state : String
  value : ℚ
  lat : ℚ
  lon : ℚ
  bubble_size : ℚ
deriving DecidableEq

/-- The figures the analysis module builds: a titled empty-state placeholder, a
heatmap of cell counts (rows ordered by descending delay bin), or a bubble
map. -/
inductive Figure
  | placeholder (title : String)
  | heatmap (z : List (List ℕ))
  | geoMap (points : List GeoPoint)
deriving DecidableEq

def defaultDelayDayRanges : List (ℚ × ℚ) :=
  [(-30, -20), (-20, -10), (-10, -5), (-5, -2), (-2, 0)]

/-- `bins = [delay_day_ranges[0][0]] + [r[1] for r in delay_day_ranges]`. -/
def mkBins (ranges : List (ℚ × ℚ)) : List ℚ :=
  match ranges with
  | [] => []
  | (a, _) :: _ => a :: ranges.map Prod.snd

/-- `pct_bins = np.linspace(0, 100, 11)`. -/
def pct_bins : List ℚ := linspace100 11

/-- `delayed_orders['delay_bin'] = pd.cut(delayed_orders['delay_days'], bins, include_lowest=True)`. -/
def binDelay (ranges : List (ℚ × ℚ)) (rows : List DORow) : List DORow :=
  rows.map (fun r => { r with delay_bin := r.delay_days.bind (pdCut (mkBins ranges)) })

/-- `delayed_orders['pct_bin'] = pd.cut(delayed_orders[pct_col], pct_bins, include_lowest=True)`. -/
def binPct (rows : List DORow) : List DORow :=
  rows.map (fun r => { r with pct_bin := r.pct.bind (pdCut pct_bins) })

/-- One cell of `pd.crosstab(delay_bin, pct_bin)`: rows binned into delay
interval `i` and percentage interval `j` (NaN bins are never counted). -/
def heatCell (rows : List DORow) (i j : ℕ) : ℕ :=
  (rows.filter (fun r => r.delay_bin = some i ∧ r.pct_bin = some j)).length

/-- The crosstab values after `sort_index(ascending=False)`: all delay bins in
descending order against the ten percentage bins. -/
def heatZ (nBins : ℕ) (rows : List DORow) : List (List ℕ) :=
  ((List.range nBins).reverse).map (fun i => (List.range 10).map (fun j => heatCell rows i j))

/-- The `delay_days`-ensuring prologue of `create_delay_heatmap`: keep the
column, derive it from `Delay`, or fail (`raise ValueError`) when neither
column exists. -/
def deriveDelayDays (df : DOFrame) : Option DOFrame :=
  if df.hasDelayDays then some df
  else if df.hasDelay then
    some { df with
      hasDelayDays := true
      rows := df.rows.map
        (fun r => { r with delay_days := r.Delay.map (fun s => (s : ℚ) / 86400) }) }
  else none

/-- `create_delay_heatmap(delayed_orders, ..., delay_day_ranges, ...)`: empty
input gives a placeholder figure; a nonempty frame with neither `delay_days`
nor `Delay` raises `ValueError`; otherwise the binning columns are written into
the caller's frame and the crosstab heatmap is returned. -/
def create_delay_heatmap (df : DOFrame) (ranges : Option (List (ℚ × ℚ))) :
    Except String (Figure × DOFrame) :=
  if df.rows.isEmpty then
    .ok (.placeholder "No delayed orders available for the selected filters", df)
  else
    match deriveDelayDays df with
    | none => .error "No delay information available in delayed_orders DataFrame"
    | some df1 =>
      let delay_day_ranges := ranges.getD defaultDelayDayRanges
      let df2 := { df1 with hasDelayBin := true, rows := binDelay delay_day_ranges df1.rows }
      let df3 := { df2 with hasPctBin := true, rows := binPct df2.rows }
      .ok (.heatmap (heatZ delay_day_ranges.length df3.rows), df3)

/-- Total of all displayed heatmap cell counts. -/
def figHeatSum : Figure → ℕ
  | .heatmap z => (z.map (fun zrow => zrow.sum)).sum
  | _ => 0

/-- A delayed order counted by the default heatmap: `delay_days` in `[-30, 0)`
and a valid (in-range) percentage value. -/
def goodRow (r : DORow) : Bool :=
  match r.delay_days, r.pct with
  | some d, some p => decide (-30 ≤ d) && decide (d < 0) && decide (0 ≤ p) && decide (p ≤ 100)
  | _, _ => false

/-- A delayed-orders frame carrying both `Delay` and `delay_days` columns. -/
def mkDOFrame (rows : List DORow) : DOFrame := ⟨true, true, false, false, rows⟩

/-! ### `create_geo_bubble_map` -/

structure GeoRow where
  order_id : String
  customer_state : String
  Net_State : String
  Delay : Option ℤ
  TOTAL : Option ℚ
deriving DecidableEq

structure GeoFrame where
  hasTOTAL : Bool
  rows : List GeoRow
deriving DecidableEq

/-- `Delay < pd.Timedelta(0)` (false on `NaT`). -/
def geoNeg (r : GeoRow) : Bool :=
  match r.Delay with
  | some v => decide (v < 0)
  | none => false

def BRAZIL_STATE_CENTROIDS : List (String × ℚ × ℚ) :=
  [("AC", -9.0238, -70.8120), ("AL", -9.5713, -36.7819),
   ("AP", 0.9020, -51.8544), ("AM", -3.4168, -65.8561),
   ("BA", -12.5797, -41.7007), ("CE", -5.4984, -39.3206),
   ("DF", -15.7801, -47.9292), ("ES", -19.1834, -40.3089),
   ("GO", -15.8270, -49.8362), ("MA", -5.4026, -45.1116),
   ("MT", -12.6819, -56.9211), ("MS", -20.7722, -54.7852),
   ("MG", -18.5122, -44.5550), ("PA", -3.4168, -52.0030),
   ("PB", -7.2400, -36.7820), ("PR", -24.7953, -51.7955),
   ("PE", -8.8137, -36.9541), ("PI", -6.6000, -42.2800),
   ("RJ", -22.9068, -43.1729), ("RN", -5.7945, -36.5172),
   ("RS", -30.0346, -51.2177), ("RO", -11.5057, -63.5806),
   ("RR", 2.7376, -62.0751), ("SC", -27.5954, -48.5480),
   ("SP", -23.5505, -46.6333), ("SE", -10.5741, -37.3857),
   ("TO", -10.1753, -48.2982)]

def centroidOf (st : String) : Option (ℚ × ℚ) :=
  (BRAZIL_STATE_CENTROIDS.find? (fun p => p.1 == st)).map Prod.snd

/-- `agg(value=('order_id', 'nunique'))` within one state group. -/
def nuniqueOrders (rows : List GeoRow) : ℚ :=
  (((rows.map (fun r => r.order_id)).dedup).length : ℚ)

/-- `df.groupby('customer_state').agg(...)`: per-state order counts, or
per-state `TOTAL` sums for the revenue metric when that column exists (group
order follows first appearance; it does not affect the verified properties). -/
def geo_group (rows : List GeoRow) (useTOTAL : Bool) : List (String × ℚ) :=
  ((rows.map (fun r => r.customer_state)).dedup).map (fun st =>
    (st, if useTOTAL then
        ((rows.filter (fun r => r.customer_state == st)).filterMap (fun r => r.TOTAL)).sum
      else nuniqueOrders (rows.filter (fun r => r.customer_state == st))))

def listMinQ : List ℚ → ℚ
  | [] => 0
  | x :: xs => xs.foldl min x

def listMaxQ : List ℚ → ℚ
  | [] => 0
  | x :: xs => xs.foldl max x

/-- The figure built by `create_geo_bubble_map` from the copied frame. -/
def geo_fig (orders : GeoFrame) (metric status : String)
    (delayed_only : Bool) (bubble_size_multiplier : ℚ) : Figure :=
  let df0 := orders.rows
  let df1 := if status ≠ "All" then df0.filter (fun r => r.Net_State == status) else df0
  let df2 := if delayed_only || metric == "delayed" then df1.filter geoNeg else df1
  if df2.isEmpty then
    .placeholder "No data available for selected filters"
  else
    let useTOTAL := (!(metric == "orders" || metric == "delayed")) && orders.hasTOTAL
    let geo_df := geo_group df2 useTOTAL
    let geo2 := geo_df.filterMap
      (fun p => (centroidOf p.1).map (fun c => (p.1, p.2, c.1, c.2)))
    if geo2.isEmpty then
      .placeholder "No states with coordinates found in data"
    else
      let vals := geo2.map (fun p => p.2.1)
      let mn := listMinQ vals
      let mx := listMaxQ vals
      let pts := geo2.map (fun p =>
        let size := if mx > mn then 10 + 30 * (p.2.1 - mn) / (mx - mn) else (20 : ℚ)
        GeoPoint.mk p.1 p.2.1 p.2.2.1 p.2.2.2 (size * bubble_size_multiplier))
      .geoMap pts

/-- `create_geo_bubble_map(orders, metric, status, delayed_only, bubble_size_multiplier, ...)`.
The source's first statement is `df = orders.copy()` and every subsequent write
hits the copy, so the caller's frame is returned untouched as the second
component. -/
def create_geo_bubble_map (orders : GeoFrame) (metric status : String)
    (delayed_only : Bool) (bubble_size_multiplier : ℚ) : Figure × GeoFrame :=
  (geo_fig orders metric status delayed_only bubble_size_multiplier, orders)

/-! ### `RevenueAnalyzer` (src/analysis/revenue_analysis.py) -/

structure OrderItem where
  order_id : String
  product_id : String
  seller_id : String
  price : ℚ
  freight_value : ℚ
deriving DecidableEq

structure Product where
  product_id : String
  product_category_name : Option String
  product_weight_g : Option ℚ
  product_length_cm : Option ℚ
  product_height_cm : Option ℚ
  product_width_cm : Option ℚ
deriving DecidableEq

structure MergedRow where
  order_id : String
  product_id : String
  seller_id : String
  price : ℚ
  freight_value : ℚ
  product_category_name : Option String
  product_weight_g : Option ℚ
  product_length_cm : Option ℚ
  product_height_cm : Option ℚ
  product_width_cm : Option ℚ
deriving DecidableEq

/-- `pd.merge(order_items, products, on='product_id', how='left')`: one output
row per matching product, or a single row with missing product columns when no
product matches. -/
def merge_left (order_items : List OrderItem) (products : List Product) : List MergedRow :=
  order_items.flatMap (fun it =>
    let ms := products.filter (fun p => p.product_id == it.product_id)
    if ms.isEmpty then
      [⟨it.order_id, it.product_id, it.seller_id, it.price, it.freight_value,
        none, none, none, none, none⟩]
    else ms.map (fun p =>
      ⟨it.order_id, it.product_id, it.seller_id, it.price, it.freight_value,
        p.product_category_name, p.product_weight_g, p.product_length_cm,
        p.product_height_cm, p.product_width_cm⟩))

structure DetailRow where
  order_id : String
  product_id : String
  seller_id : String
  price : ℚ
  freight_value : ℚ
  product_category_name : String
  product_weight_g : Option ℚ
  product_length_cm : Option ℚ
  product_height_cm : Option ℚ
  product_width_cm : Option ℚ
  Total : ℚ
deriving DecidableEq

/-- `RevenueAnalyzer.prepare_data`: merge, fill missing categories with
`'Others'`, and add `Total = price + freight_value`. -/
def prepare_data (order_items : List OrderItem) (products : List Product) : List DetailRow :=
  (merge_left order_items products).map (fun r =>
    ⟨r.order_id, r.product_id, r.seller_id, r.price, r.freight_value,
      r.product_category_name.getD "Others", r.product_weight_g, r.product_length_cm,
      r.product_height_cm, r.product_width_cm, r.price + r.freight_value⟩)

/-- `df.groupby(key).agg(Total=(metric, 'sum'))` over arbitrary rows: one pair
per distinct key, carrying the metric total of that group. -/
def sumBy {α K : Type} [DecidableEq K] (key : α → K) (metric : α → ℚ)
    (rows : List α) : List (K × ℚ) :=
  ((rows.map key).dedup).map
    (fun k => (k, ((rows.filter (fun r => key r = k)).map metric).sum))

/-- `sort_values('Total', ascending=False)` on an aggregated frame. -/
def sortDescSnd {K : Type} (l : List (K × ℚ)) : List (K × ℚ) :=
  l.insertionSort (fun a b => b.2 ≤ a.2)

/-- `RevenueAnalyzer._analyze_by_category(metric_column)`. -/
def analyze_by_category (detail : List DetailRow) (metric : DetailRow → ℚ) :
    List (String × ℚ) :=
  sortDescSnd (sumBy (fun r => r.product_category_name) metric detail)

/-- `RevenueAnalyzer._analyze_by_vendor(metric_column)`. -/
def analyze_by_vendor (detail : List DetailRow) (metric : DetailRow → ℚ) :
    List (String × ℚ) :=
  sortDescSnd (sumBy (fun r => r.seller_id) metric detail)

/-- `total_revenue = self.order_items_detailed['Total'].sum()`. -/
def total_revenue_of (detail : List DetailRow) : ℚ := (detail.map (fun r => r.Total)).sum

def hasAllDims (r : DetailRow) : Bool :=
  r.product_weight_g.isSome && r.product_length_cm.isSome &&
    r.product_height_cm.isSome && r.product_width_cm.isSome

/-- `dropna(subset=dimensional_columns)` followed by
`Volume_cm = width * height * length`. -/
def volumeData (detail : List DetailRow) : List (DetailRow × ℚ) :=
  (detail.filter hasAllDims).map (fun r =>
    (r, r.product_width_cm.getD 0 * r.product_height_cm.getD 0 * r.product_length_cm.getD 0))

def countMissing (detail : List DetailRow) (f : DetailRow → Option ℚ) : ℕ :=
  (detail.filter (fun r => (f r).isNone)).length

structure AnalysisResults where
  total_revenue : ℚ
  average_order_value : ℚ
  total_orders : ℕ
  total_products : ℕ
  avg_items_per_order : ℚ
  category_revenue_all : List (String × ℚ)
  category_revenue_freight : List (String × ℚ)
  category_revenue_price : List (String × ℚ)
  vendor_revenue_all : List (String × ℚ)
  vendor_revenue_freight : List (String × ℚ)
  vendor_revenue_price : List (String × ℚ)
  volume_analysis_data : List (DetailRow × ℚ)
  missing_dimensional_data : ℕ × ℕ × ℕ × ℕ
  top_category : Option (String × ℚ)
  top_vendor : Option (String × ℚ)
  order_items_detailed : List DetailRow
deriving DecidableEq

/-- `RevenueAnalyzer.run_comprehensive_analysis`: on empty `order_items` the
unguarded `avg_items_per_order = total_products / total_orders` divides zero by
zero and raises `ZeroDivisionError`. -/
def run_comprehensive_analysis (order_items : List OrderItem) (products : List Product) :
    Except String AnalysisResults :=
  let detail := prepare_data order_items products
  let total_revenue := total_revenue_of detail
  let order_totals := sumBy (fun r => r.order_id) (fun r => r.Total) detail
  let total_orders := order_totals.length
  let total_products := detail.length
  if total_orders = 0 then .error "ZeroDivisionError: division by zero"
  else
    let category_revenue_all := analyze_by_category detail (fun r => r.Total)
    let vendor_revenue_all := analyze_by_vendor detail (fun r => r.Total)
    .ok
      { total_revenue := total_revenue
        average_order_value := (order_totals.map Prod.snd).sum / (total_orders : ℚ)
        total_orders := total_orders
        total_products := total_products
        avg_items_per_order := (total_products : ℚ) / (total_orders : ℚ)
        category_revenue_all := category_revenue_all
        category_revenue_freight := analyze_by_category detail (fun r => r.freight_value)
        category_revenue_price := analyze_by_category detail (fun r => r.price)
        vendor_revenue_all := vendor_revenue_all
        vendor_revenue_freight := analyze_by_vendor detail (fun r => r.freight_value)
        vendor_revenue_price := analyze_by_vendor detail (fun r => r.price)
        volume_analysis_data := volumeData detail
        missing_dimensional_data :=
          (countMissing detail (fun r => r.product_weight_g),
            countMissing detail (fun r => r.product_length_cm),
            countMissing detail (fun r => r.product_height_cm),
            countMissing detail (fun r => r.product_width_cm))
        top_category := category_revenue_all.head?
        top_vendor := vendor_revenue_all.head?
        order_items_detailed := detail }

/-! ### Concrete frames used by counterexamples and witnesses -/

/-- A nonempty delayed-orders frame lacking both `delay_days` and `Delay`. -/
def dfMissingCols : DOFrame := ⟨false, false, false, false, [⟨none, none, some 50, none, none⟩]⟩

/-- A nonempty delayed-orders frame with both delay columns, one row 2.5 days
late at percentage 50. -/
def dfMut : DOFrame := ⟨true, true, false, false, [⟨some (-216000), some (-(5 / 2)), some 50, none, none⟩]⟩

/-- The state of `dfMut` after `create_delay_heatmap` has appended its binning
columns to it. -/
def dfMutPost : DOFrame :=
  { dfMut with
    hasDelayBin := true
    hasPctBin := true
    rows := binPct (binDelay defaultDelayDayRanges dfMut.rows) }

def figMut : Figure := .heatmap (heatZ defaultDelayDayRanges.length dfMutPost.rows)

def geoFrameW : GeoFrame := ⟨false, [⟨"o1", "SP", "Delivered", some (-86400), none⟩]⟩

/-- One delivered order five seconds early: no row has a negative delay, so no
row matches `get_delayed_orders_by_stage`. -/
def stageRowsW : List PerfRow := [⟨"Delivered", some 5⟩]

/-! ## Theorems -/

/-! ### `pd.cut` characterisation -/

theorem pdCutGo_isSome (x : ℚ) :
    ∀ (es : List ℚ) (i : ℕ), (pdCutGo x es i).isSome ↔ ∃ e ∈ es, x ≤ e := by
  intro es
  induction es with
  | nil => intro i; simp [pdCutGo]
  | cons e es ih =>
    intro i
    by_cases h : x ≤ e
    · simp [pdCutGo, h]
    · simp [pdCutGo, h, ih (i + 1)]

theorem pdCut_isSome (e0 : ℚ) (rest : List ℚ) (x : ℚ) :
    (pdCut (e0 :: rest) x).isSome ↔ (e0 ≤ x ∧ ∃ e ∈ rest, x ≤ e) := by
  by_cases h : x < e0
  · simp [pdCut, h, not_le.mpr h]
  · simp [pdCut, h, pdCutGo_isSome, not_lt.mp h]

theorem pdCutGo_lt (x : ℚ) :
    ∀ (es : List ℚ) (i j : ℕ), pdCutGo x es i = some j → j < i + es.length := by
  intro es
  induction es with
  | nil => intro i j h; simp [pdCutGo] at h
  | cons e es ih =>
    intro i j h
    by_cases hle : x ≤ e
    · simp [pdCutGo, hle] at h
      simp only [List.length_cons]
      omega
    · simp [pdCutGo, hle] at h
      have := ih (i + 1) j h
      simp only [List.length_cons]
      omega

theorem pdCut_lt (edges : List ℚ) (x : ℚ) (j : ℕ) (h : pdCut edges x = some j) :
    j + 1 < edges.length := by
  cases edges with
  | nil => simp [pdCut] at h
  | cons e0 rest =>
    by_cases hlt : x < e0
    · simp [pdCut, hlt] at h
    · simp [pdCut, hlt] at h
      have := pdCutGo_lt x rest 0 j h
      simp only [List.length_cons]
      omega

/-! ### Fiber-sum lemmas: a group-by aggregation sums back to the whole -/

theorem list_sum_map_ite_eq {K M : Type} [AddCommMonoid M] [DecidableEq K]
    (ks : List K) (k0 : K) (c : M) (hnd : ks.Nodup) (hm : k0 ∈ ks) :
    (ks.map (fun k => if k0 = k then c else 0)).sum = c := by
  induction ks with
  | nil => cases hm
  | cons a t ih =>
    rcases List.mem_cons.mp hm with h0 | h0
    · subst h0
      have hnot : ∀ k ∈ t, ¬ k0 = k := by
        intro k hk he
        exact (List.nodup_cons.mp hnd).1 (he ▸ hk)
      have : (t.map (fun k => if k0 = k then c else 0)).sum = 0 := by
        apply List.sum_eq_zero
        intro x hx
        rcases List.mem_map.mp hx with ⟨k, hk, rfl⟩
        simp [hnot k hk]
      simp [this]
    · have hne : ¬ k0 = a := by
        intro he
        exact (List.nodup_cons.mp hnd).1 (he ▸ h0)
      simp [hne, ih (List.nodup_cons.mp hnd).2 h0]

theorem list_sum_map_add {K M : Type} [AddCommMonoid M] (ks : List K) (f g : K → M) :
    (ks.map (fun k => f k + g k)).sum = (ks.map f).sum + (ks.map g).sum := by
  induction ks with
  | nil => simp
  | cons a t ih => simp [ih]; abel

/-- Summing the per-group totals of a group-by over any duplicate-free key list
covering the rows gives back the total over all rows. -/
theorem sum_fibers {α K M : Type} [AddCommMonoid M] [DecidableEq K]
    (key : α → K) (f : α → M) (ks : List K) (rows : List α)
    (hnd : ks.Nodup) (hcov : ∀ r ∈ rows, key r ∈ ks) :
    (ks.map (fun k => ((rows.filter (fun r => key r = k)).map f).sum)).sum
      = (rows.map f).sum := by
  induction rows with
  | nil => simp
  | cons r t ih =>
    have hcov' : ∀ s ∈ t, key s ∈ ks := fun s hs => hcov s (List.mem_cons_of_mem _ hs)
    have step : ∀ k : K,
        (((r :: t).filter (fun s => key s = k)).map f).sum
          = (if key r = k then f r else 0) + ((t.filter (fun s => key s = k)).map f).sum := by
      intro k
      by_cases h : key r = k
      · simp [List.filter_cons, h]
      · simp [List.filter_cons, h]
    calc (ks.map (fun k => (((r :: t).filter (fun s => key s = k)).map f).sum)).sum
        = (ks.map (fun k => (if key r = k then f r else 0)
            + ((t.filter (fun s => key s = k)).map f).sum)).sum := by
          congr 1
          exact List.map_congr_left (fun k _ => step k)
      _ = (ks.map (fun k => if key r = k then f r else 0)).sum
            + (ks.map (fun k => ((t.filter (fun s => key s = k)).map f).sum)).sum :=
          list_sum_map_add ks _ _
      _ = f r + (t.map f).sum := by
          rw [list_sum_map_ite_eq ks (key r) (f r) hnd (hcov r (List.mem_cons_self r t)),
            ih hcov']
      _ = ((r :: t).map f).sum := by simp

/-- Counting version of `sum_fibers`: the cell counts of a cross-tabulation over
any duplicate-free key list covering the occurring keys sum to the number of
rows whose key is present (`none`-keyed rows are silently dropped, as `pd.cut`
out-of-range values are). -/
theorem count_fibers {α : Type} (g : α → Option ℕ) (ks : List ℕ) (l : List α)
    (hnd : ks.Nodup) (hcov : ∀ r ∈ l, ∀ k, g r = some k → k ∈ ks) :
    (ks.map (fun k => (l.filter (fun r => g r = some k)).length)).sum
      = (l.filter (fun r => (g r).isSome)).length := by
  induction l with
  | nil => simp
  | cons r t ih =>
    have hcov' : ∀ s ∈ t, ∀ k, g s = some k → k ∈ ks :=
      fun s hs => hcov s (List.mem_cons_of_mem _ hs)
    cases hg : g r with
    | none =>
      have step : ∀ k : ℕ, ((r :: t).filter (fun s => g s = some k)).length
          = (t.filter (fun s => g s = some k)).length := by
        intro k
        simp [List.filter_cons, hg]
      calc (ks.map (fun k => (((r :: t)).filter (fun s => g s = some k)).length)).sum
          = (ks.map (fun k => (t.filter (fun s => g s = some k)).length)).sum := by
            congr 1
            exact List.map_congr_left (fun k _ => step k)
        _ = (t.filter (fun s => (g s).isSome)).length := ih hcov'
        _ = ((r :: t).filter (fun s => (g s).isSome)).length := by
            simp [List.filter_cons, hg]
    | some k0 =>
      have hk0 : k0 ∈ ks := hcov r (List.mem_cons_self r t) k0 hg
      have step : ∀ k : ℕ, ((r :: t).filter (fun s => g s = some k)).length
          = (if k0 = k then 1 else 0) + (t.filter (fun s => g s = some k)).length := by
        intro k
        by_cases h : k0 = k
        · simp [List.filter_cons, hg, h]
          omega
        · have : ¬ (g r = some k) := by simp [hg, h]
          simp [List.filter_cons, hg, h]
      calc (ks.map (fun k => (((r :: t)).filter (fun s => g s = some k)).length)).sum
          = (ks.map (fun k => (if k0 = k then 1 else 0)
              + (t.filter (fun s => g s = some k)).length)).sum := by
            congr 1
            exact List.map_congr_left (fun k _ => step k)
        _ = (ks.map (fun k => if k0 = k then 1 else 0)).sum
              + (ks.map (fun k => (t.filter (fun s => g s = some k)).length)).sum :=
            list_sum_map_add ks _ _
        _ = 1 + (t.filter (fun s => (g s).isSome)).length := by
            rw [list_sum_map_ite_eq ks k0 (1 : ℕ) hnd hk0, ih hcov']
        _ = ((r :: t).filter (fun s => (g s).isSome)).length := by
            simp [List.filter_cons, hg]
            omega

/-! ### Claim theorems -/

/-- C1: the coefficient the concentration charts annotate as "Gini Coefficient"
is not 0 on an equal distribution and does not tend to 1 under concentration:
two equally sized vendors give -1/2, four give -1/4 (an equal split over N
vendors gives -1/N), and revenue fully concentrated on one of two vendors gives
-1.  The cumulative shares are sorted descending, so the curve lies above the
perfect-equality line and `(perfect_area - lorenz_area) / perfect_area` is
always nonpositive; the regional variant computes the same value. -/
theorem gini_code_values :
    create_vendor_concentration_gini [50, 50] = -(1 / 2) ∧
    create_vendor_concentration_gini [1, 1, 1, 1] = -(1 / 4) ∧
    create_vendor_concentration_gini [100, 0] = -1 ∧
    create_regional_concentration_gini [50, 50] = -(1 / 2) := by
  refine ⟨?_, ?_, ?_, ?_⟩ <;>
    norm_num [create_vendor_concentration_gini, create_regional_concentration_gini,
      sortDescQ, cumsum, cumsumFrom, linspace100, trapz, List.insertionSort,
      List.orderedInsert, List.range_succ]

/-- C2: for every order row with both timestamps present, the derived `Delay`
column equals `order_estimated_delivery_date - order_delivered_customer_date`,
and the rows `get_delay_analysis` classifies as delayed are exactly the cleaned
rows whose `Delay` is strictly negative. -/
theorem delay_column_spec (has_status_col : Bool) (rows : List RawOrder) (r : RawOrder)
    (e d : ℤ) (hr : r ∈ rows)
    (he : r.order_estimated_delivery_date = some e)
    (hd : r.order_delivered_customer_date = some d) :
    (mkDelayRow has_status_col r).Delay = some (e - d) ∧
    mkDelayRow has_status_col r ∈ delay_data has_status_col rows ∧
    (mkDelayRow has_status_col r ∈ delayed_orders has_status_col rows ↔
      mkDelayRow has_status_col r ∈ delay_data_clean has_status_col rows ∧ e - d < 0) := by
  have hdel : (mkDelayRow has_status_col r).Delay = some (e - d) := by
    simp [mkDelayRow, optSub, he, hd]
  refine ⟨hdel, List.mem_map_of_mem _ hr, ?_⟩
  rw [delayed_orders, List.mem_filter, isNegDelay, hdel]
  simp

theorem delay_column_spec_witness :
    (mkDelayRow true rawOrderW).Delay = some (604800 - 864000) ∧
    mkDelayRow true rawOrderW ∈ delay_data true [rawOrderW] ∧
    (mkDelayRow true rawOrderW ∈ delayed_orders true [rawOrderW] ↔
      mkDelayRow true rawOrderW ∈ delay_data_clean true [rawOrderW] ∧
        (604800 : ℤ) - 864000 < 0) :=
  delay_column_spec true [rawOrderW] rawOrderW 604800 864000
    (List.mem_cons_self _ _) rfl rfl

/-- C7: the derived `Net_State` column takes exactly the two values
`"Delivered"` and `"Not_Delivered"`, and when the raw `order_status` column is
present it is `"Delivered"` precisely for rows whose status is `'delivered'`. -/
theorem net_state_binary (has_status_col : Bool) (st : Option String) :
    (netStateOf has_status_col st = "Delivered" ∨
      netStateOf has_status_col st = "Not_Delivered") ∧
    (has_status_col = true →
      (netStateOf has_status_col st = "Delivered" ↔ st = some "delivered")) := by
  constructor
  · by_cases hc : has_status_col <;> by_cases hs : st = some "delivered" <;>
      simp [netStateOf, hc, hs]
  · intro hc
    subst hc
    by_cases hs : st = some "delivered" <;> simp [netStateOf, hs]

theorem net_state_binary_witness :
    (netStateOf true (some "delivered") = "Delivered" ↔
      (some "delivered" : Option String) = some "delivered") ∧
    (netStateOf true (some "shipped") = "Delivered" ∨
      netStateOf true (some "shipped") = "Not_Delivered") :=
  ⟨(net_state_binary true (some "delivered")).2 rfl,
    (net_state_binary true (some "shipped")).1⟩

/-- C8: `_convert_delay_to_timedelta` never raises: on any input `Delay`
column it returns normally (with a possible warning flag), and the resulting
column is always timedelta-typed, each entry being a timedelta or `NaT`. -/
theorem convert_delay_total (c : PdCol) :
    ∃ v warn, convert_delay_to_timedelta c = Except.ok (PdCol.td v, warn) := by
  cases c with
  | td v => exact ⟨v, false, rfl⟩
  | num v =>
    exact ⟨v.map (Option.map (fun q => Int.floor q)), false, rfl⟩
  | obj v =>
    by_cases h : v.all strEntryOk
    · refine ⟨v.map (fun s => s.bind parseTimedeltaStr), false, ?_⟩
      simp [convert_delay_to_timedelta, is_timedelta64_dtype, to_timedelta, parseStrCol, h]
    · by_cases h2 : (astype_str (PdCol.obj v)).all strEntryOk
      · refine ⟨(astype_str (PdCol.obj v)).map (fun s => s.bind parseTimedeltaStr), false, ?_⟩
        simp [convert_delay_to_timedelta, is_timedelta64_dtype, to_timedelta, parseStrCol,
          h, h2, is_numeric_dtype]
      · refine ⟨List.replicate (PdCol.obj v).colLength none, true, ?_⟩
        simp [convert_delay_to_timedelta, is_timedelta64_dtype, to_timedelta, parseStrCol,
          h, h2, is_numeric_dtype]

/-- C9: a row whose `Delay` is exactly zero survives the `dropna` (so it is
counted in `total_orders`, and in `delivered_orders` when delivered) but
belongs to none of the four category subsets of `get_delivery_performance`,
whose comparisons are strict; `no_delay_delivered` (the `on_time_rate`
numerator) holds only strictly-early deliveries; and on a concrete frame the
four subset sizes do not sum to the number of categorised rows. -/
theorem zero_delay_uncategorized (rows : List PerfRow) (r : PerfRow)
    (hr : r ∈ rows) (h0 : r.Delay = some 0) :
    (r ∈ working_clean rows ∧
      (r.Net_State = "Delivered" → r ∈ delivered_list rows) ∧
      r ∉ delay_delivered rows ∧ r ∉ delay_not_delivered rows ∧
      r ∉ no_delay_delivered rows ∧ r ∉ no_delay_not_delivered rows) ∧
    (∀ s ∈ no_delay_delivered rows, ∃ v, s.Delay = some v ∧ 0 < v) ∧
    ((delay_delivered perfRowsZ).length + (delay_not_delivered perfRowsZ).length
        + (no_delay_delivered perfRowsZ).length
        + (no_delay_not_delivered perfRowsZ).length
      ≠ perf_total_orders perfRowsZ) ∧
    on_time_rate perfRowsZ = 0 := by
  have hclean : r ∈ working_clean rows :=
    List.mem_filter.mpr ⟨hr, by simp [h0]⟩
  have hneg : perfNeg r = false := by simp [perfNeg, h0]
  have hpos : perfPos r = false := by simp [perfPos, h0]
  refine ⟨⟨hclean, ?_, ?_, ?_, ?_, ?_⟩, ?_, ?_, ?_⟩
  · intro hdel
    exact List.mem_filter.mpr ⟨hclean, by simp [hdel]⟩
  · intro hmem
    have := (List.mem_filter.mp hmem).2
    simp [hneg] at this
  · intro hmem
    have := (List.mem_filter.mp hmem).2
    simp [hneg] at this
  · intro hmem
    have := (List.mem_filter.mp hmem).2
    simp [hpos] at this
  · intro hmem
    have := (List.mem_filter.mp hmem).2
    simp [hpos] at this
  · intro s hs
    have := (List.mem_filter.mp hs).2
    cases hv : s.Delay with
    | none => simp [perfPos, hv] at this
    | some v =>
      refine ⟨v, rfl, ?_⟩
      simp [perfPos, hv] at this
      exact this.1
  · decide
  · simp [on_time_rate, perf_delivered_orders, delivered_list, working_clean,
      no_delay_delivered, perfRowsZ, perfPos]

theorem zero_delay_uncategorized_witness :
    ((⟨"Delivered", some 0⟩ : PerfRow) ∈ working_clean perfRowsZ ∧
      ((⟨"Delivered", some 0⟩ : PerfRow).Net_State = "Delivered" →
        (⟨"Delivered", some 0⟩ : PerfRow) ∈ delivered_list perfRowsZ) ∧
      (⟨"Delivered", some 0⟩ : PerfRow) ∉ delay_delivered perfRowsZ ∧
      (⟨"Delivered", some 0⟩ : PerfRow) ∉ delay_not_delivered perfRowsZ ∧
      (⟨"Delivered", some 0⟩ : PerfRow) ∉ no_delay_delivered perfRowsZ ∧
      (⟨"Delivered", some 0⟩ : PerfRow) ∉ no_delay_not_delivered perfRowsZ) ∧
    (∀ s ∈ no_delay_delivered perfRowsZ, ∃ v, s.Delay = some v ∧ 0 < v) ∧
    ((delay_delivered perfRowsZ).length + (delay_not_delivered perfRowsZ).length
        + (no_delay_delivered perfRowsZ).length
        + (no_delay_not_delivered perfRowsZ).length
      ≠ perf_total_orders perfRowsZ) ∧
    on_time_rate perfRowsZ = 0 :=
  zero_delay_uncategorized perfRowsZ ⟨"Delivered", some 0⟩
    (List.mem_cons_self _ _) rfl

/-- Sorting an aggregated frame permutes it, so the column sums agree. -/
theorem sortDescSnd_snd_sum {K : Type} (l : List (K × ℚ)) :
    ((sortDescSnd l).map Prod.snd).sum = (l.map Prod.snd).sum :=
  ((List.perm_insertionSort _ l).map Prod.snd).sum_eq

/-- A group-by total column sums to the unaggregated metric total. -/
theorem sumBy_snd_sum {α K : Type} [DecidableEq K] (key : α → K) (metric : α → ℚ)
    (rows : List α) :
    ((sumBy key metric rows).map Prod.snd).sum = (rows.map metric).sum := by
  rw [sumBy, List.map_map]
  exact sum_fibers key metric _ rows (List.nodup_dedup _)
    (fun r hr => List.mem_dedup.mpr (List.mem_map_of_mem key hr))

/-- C3: the per-category revenue totals of `_analyze_by_category('Total')` sum
to `total_revenue`, and likewise the per-vendor totals of
`_analyze_by_vendor('Total')`: every merged row carries exactly one category
(missing ones filled with `'Others'`) and one `seller_id`, so the group-by is a
partition of the merged rows. -/
theorem revenue_partition (order_items : List OrderItem) (products : List Product) :
    ((analyze_by_category (prepare_data order_items products) (fun r => r.Total)).map
        Prod.snd).sum
      = total_revenue_of (prepare_data order_items products) ∧
    ((analyze_by_vendor (prepare_data order_items products) (fun r => r.Total)).map
        Prod.snd).sum
      = total_revenue_of (prepare_data order_items products) := by
  constructor
  · rw [analyze_by_category, sortDescSnd_snd_sum, sumBy_snd_sum]
    rfl
  · rw [analyze_by_vendor, sortDescSnd_snd_sum, sumBy_snd_sum]
    rfl

/-- C4 counterexample: `run_comprehensive_analysis` on empty `order_items` does
not return a results dict; the unguarded `avg_items_per_order =
total_products / total_orders` raises `ZeroDivisionError`. -/
theorem run_comprehensive_empty_error :
    run_comprehensive_analysis [] [] = Except.error "ZeroDivisionError: division by zero" :=
  rfl

/-- C4 (amended): the chart builders return placeholder figures on empty input
without raising, but `RevenueAnalyzer.run_comprehensive_analysis` on empty
`order_items` raises `ZeroDivisionError` instead of returning a results
dict. -/
theorem empty_input_amended (products : List Product) (hd hdd : Bool) :
    run_comprehensive_analysis [] products
        = Except.error "ZeroDivisionError: division by zero" ∧
    create_delay_heatmap ⟨hd, hdd, false, false, []⟩ none
        = Except.ok
            (Figure.placeholder "No delayed orders available for the selected filters",
              ⟨hd, hdd, false, false, []⟩) ∧
    (create_geo_bubble_map ⟨false, []⟩ "orders" "All" false 1).1
        = Figure.placeholder "No data available for selected filters" :=
  ⟨rfl, rfl, rfl⟩

/-- C5 counterexample: a nonempty frame lacking both `delay_days` and `Delay`
makes `create_delay_heatmap` raise `ValueError` rather than short-circuit to a
placeholder chart. -/
theorem heatmap_missing_columns_raises :
    create_delay_heatmap dfMissingCols none
      = Except.error "No delay information available in delayed_orders DataFrame" :=
  rfl

/-- C5 (amended): `get_delayed_orders_by_stage` with no matching rows returns
an empty frame, and `create_delay_heatmap` on an empty frame returns a
placeholder, but on a nonempty frame lacking both `delay_days` and `Delay` it
raises `ValueError` instead of short-circuiting. -/
theorem missing_columns_amended (df : DOFrame) (ranges : Option (List (ℚ × ℚ)))
    (hne : df.rows ≠ []) (h1 : df.hasDelayDays = false) (h2 : df.hasDelay = false)
    (stageRows : List PerfRow) (status : String)
    (hmatch : stage_filtered stageRows status = []) :
    create_delay_heatmap df ranges
        = Except.error "No delay information available in delayed_orders DataFrame" ∧
    get_delayed_orders_by_stage stageRows status = [] := by
  constructor
  · have hie : df.rows.isEmpty = false := by
      cases hrows : df.rows with
      | nil => exact absurd hrows hne
      | cons a t => rfl
    simp [create_delay_heatmap, hie, deriveDelayDays, h1, h2]
  · simp [get_delayed_orders_by_stage, hmatch]

theorem missing_columns_amended_witness :
    create_delay_heatmap dfMissingCols none
        = Except.error "No delay information available in delayed_orders DataFrame" ∧
    get_delayed_orders_by_stage stageRowsW "Delivered" = [] :=
  missing_columns_amended dfMissingCols none
    (by simp [dfMissingCols]) rfl rfl stageRowsW "Delivered" rfl

/-- C6 counterexample: `create_delay_heatmap` mutates its caller's frame: the
argument has no `delay_bin` column before the call, and the frame it leaves
behind has one. -/
theorem heatmap_mutates_argument :
    dfMut.hasDelayBin = false ∧
    (create_delay_heatmap dfMut none).map (fun p => p.2.hasDelayBin) = Except.ok true :=
  ⟨rfl, rfl⟩

/-- C6 (amended): `create_geo_bubble_map` copies its argument and leaves it
unmodified, but `create_delay_heatmap` mutates its `delayed_orders` argument in
place, leaving `delay_bin` and `pct_bin` columns (and a derived `delay_days`)
on it whenever it returns a heatmap. -/
theorem frame_effects_amended (orders : GeoFrame) (metric status : String)
    (delayed_only : Bool) (mult : ℚ) (df : DOFrame) (ranges : Option (List (ℚ × ℚ)))
    (fig : Figure) (df2 : DOFrame)
    (hok : create_delay_heatmap df ranges = Except.ok (fig, df2)) (hne : df.rows ≠ []) :
    (create_geo_bubble_map orders metric status delayed_only mult).2 = orders ∧
    df2.hasDelayBin = true ∧ df2.hasPctBin = true := by
  refine ⟨?_, ?_⟩
  · rfl
  · have hie : df.rows.isEmpty = false := by
      cases hrows : df.rows with
      | nil => exact absurd hrows hne
      | cons a t => rfl
    rw [create_delay_heatmap, hie] at hok
    simp only [Bool.false_eq_true, if_false] at hok
    cases hdd : deriveDelayDays df with
    | none => rw [hdd] at hok; cases hok
    | some df1 =>
      rw [hdd] at hok
      simp only [Except.ok.injEq, Prod.mk.injEq] at hok
      rcases hok with ⟨-, hdf2⟩
      rw [hdf2.symm] at *
      exact ⟨rfl, rfl⟩

/-! ### C10: binning of the default delay heatmap -/

theorem delay_edges_eval : mkBins defaultDelayDayRanges = [-30, -20, -10, -5, -2, 0] := rfl

theorem pct_edges_eval : pct_bins = [0, 10, 20, 30, 40, 50, 60, 70, 80, 90, 100] := by
  norm_num [pct_bins, linspace100, List.range_succ]

theorem delay_bin_isSome (d : ℚ) :
    (pdCut (mkBins defaultDelayDayRanges) d).isSome ↔ (-30 ≤ d ∧ d ≤ 0) := by
  rw [delay_edges_eval, pdCut_isSome]
  constructor
  · rintro ⟨h1, e, he, hle⟩
    refine ⟨h1, ?_⟩
    simp only [List.mem_cons, List.not_mem_nil, or_false] at he
    rcases he with rfl | rfl | rfl | rfl | rfl <;> linarith
  · rintro ⟨h1, h2⟩
    exact ⟨h1, 0, by simp, h2⟩

theorem pct_bin_isSome (p : ℚ) :
    (pdCut pct_bins p).isSome ↔ (0 ≤ p ∧ p ≤ 100) := by
  rw [pct_edges_eval, pdCut_isSome]
  constructor
  · rintro ⟨h1, e, he, hle⟩
    refine ⟨h1, ?_⟩
    simp only [List.mem_cons, List.not_mem_nil, or_false] at he
    rcases he with rfl | rfl | rfl | rfl | rfl | rfl | rfl | rfl | rfl | rfl <;> linarith
  · rintro ⟨h1, h2⟩
    exact ⟨h1, 100, by simp, h2⟩

theorem delay_bin_isSome_eq (d : ℚ) :
    (pdCut (mkBins defaultDelayDayRanges) d).isSome
      = (decide (-30 ≤ d) && decide (d ≤ 0)) := by
  rw [Bool.eq_iff_iff]
  simp [delay_bin_isSome d]

theorem pct_bin_isSome_eq (p : ℚ) :
    (pdCut pct_bins p).isSome = (decide (0 ≤ p) && decide (p ≤ 100)) := by
  rw [Bool.eq_iff_iff]
  simp [pct_bin_isSome p]

theorem delay_bin_lt5 (d : ℚ) (k : ℕ)
    (h : pdCut (mkBins defaultDelayDayRanges) d = some k) : k < 5 := by
  have h2 := pdCut_lt _ _ _ h
  rw [delay_edges_eval] at h2
  simp only [List.length_cons, List.length_nil] at h2
  omega

theorem pct_bin_lt10 (p : ℚ) (k : ℕ) (h : pdCut pct_bins p = some k) : k < 10 := by
  have h2 := pdCut_lt _ _ _ h
  rw [pct_edges_eval] at h2
  simp only [List.length_cons, List.length_nil] at h2
  omega

theorem filter_comm_bool {α : Type} (l : List α) (p q : α → Bool) :
    (l.filter q).filter p = (l.filter p).filter q := by
  rw [List.filter_filter, List.filter_filter]
  apply List.filter_congr
  intro a _
  exact Bool.and_comm _ _

/-- The displayed heatmap cell counts sum to the number of rows falling in some
delay bin and some percentage bin, provided every assigned bin index is in
range. -/
theorem heatZ_sum (n : ℕ) (rows : List DORow)
    (hdb : ∀ r ∈ rows, ∀ k, r.delay_bin = some k → k < n)
    (hpb : ∀ r ∈ rows, ∀ k, r.pct_bin = some k → k < 10) :
    ((heatZ n rows).map (fun zr => zr.sum)).sum
      = (rows.filter (fun r => r.delay_bin.isSome && r.pct_bin.isSome)).length := by
  have inner : ∀ i : ℕ,
      ((List.range 10).map (fun j => heatCell rows i j)).sum
        = ((rows.filter (fun r => r.pct_bin.isSome)).filter
            (fun r => r.delay_bin = some i)).length := by
    intro i
    have hcov : ∀ r ∈ rows.filter (fun r => r.delay_bin = some i), ∀ k,
        r.pct_bin = some k → k ∈ List.range 10 := by
      intro r hr k hk
      exact List.mem_range.mpr (hpb r (List.mem_of_mem_filter hr) k hk)
    have hcf := count_fibers (fun r => r.pct_bin) (List.range 10)
      (rows.filter (fun r => r.delay_bin = some i)) (List.nodup_range 10) hcov
    have cellEq : ∀ j : ℕ, heatCell rows i j
        = ((rows.filter (fun r => r.delay_bin = some i)).filter
            (fun r => r.pct_bin = some j)).length := by
      intro j
      rw [heatCell, List.filter_filter]
      congr 1
      apply List.filter_congr
      intro r _
      by_cases h1 : r.delay_bin = some i <;> by_cases h2 : r.pct_bin = some j <;>
        simp [h1, h2]
    calc ((List.range 10).map (fun j => heatCell rows i j)).sum
        = ((List.range 10).map (fun j =>
            ((rows.filter (fun r => r.delay_bin = some i)).filter
              (fun r => r.pct_bin = some j)).length)).sum := by
          congr 1
          exact List.map_congr_left (fun j _ => cellEq j)
      _ = ((rows.filter (fun r => r.delay_bin = some i)).filter
            (fun r => r.pct_bin.isSome)).length := hcf
      _ = ((rows.filter (fun r => r.pct_bin.isSome)).filter
            (fun r => r.delay_bin = some i)).length := by
          rw [filter_comm_bool]
  have hcov2 : ∀ r ∈ rows.filter (fun r => r.pct_bin.isSome), ∀ k,
      r.delay_bin = some k → k ∈ List.range n := by
    intro r hr k hk
    exact List.mem_range.mpr (hdb r (List.mem_of_mem_filter hr) k hk)
  have outer := count_fibers (fun r => r.delay_bin) (List.range n)
    (rows.filter (fun r => r.pct_bin.isSome)) (List.nodup_range n) hcov2
  calc ((heatZ n rows).map (fun zr => zr.sum)).sum
      = (((List.range n).reverse).map (fun i =>
          ((List.range 10).map (fun j => heatCell rows i j)).sum)).sum := by
        rw [heatZ, List.map_map]
        rfl
    _ = (((List.range n)).map (fun i =>
          ((List.range 10).map (fun j => heatCell rows i j)).sum)).sum := by
        rw [List.map_reverse, List.sum_reverse]
    _ = (((List.range n)).map (fun i =>
          ((rows.filter (fun r => r.pct_bin.isSome)).filter
            (fun r => r.delay_bin = some i)).length)).sum := by
        congr 1
        exact List.map_congr_left (fun i _ => inner i)
    _ = ((rows.filter (fun r => r.pct_bin.isSome)).filter
          (fun r => r.delay_bin.isSome)).length := outer
    _ = (rows.filter (fun r => r.delay_bin.isSome && r.pct_bin.isSome)).length := by
        rw [List.filter_filter]

/-- C10: with the default `delay_day_ranges`, `create_delay_heatmap` bins
`delay_days` into `[(-30,-20),(-20,-10),(-10,-5),(-5,-2),(-2,0)]`; any value
below -30 falls outside every bin (`pd.cut` yields NaN) and is silently
excluded, so for a frame of delayed orders (all `delay_days` negative) the
displayed cell counts sum to the number of rows with `delay_days` in
`[-30, 0)` and an in-range percentage value, not to all rows. -/
theorem heatmap_bin_sum (rows : List DORow) (hne : rows ≠ [])
    (hneg : ∀ r ∈ rows, ∀ d : ℚ, r.delay_days = some d → d < 0) :
    (create_delay_heatmap (mkDOFrame rows) none).map (fun p => figHeatSum p.1)
        = Except.ok ((rows.filter goodRow).length) ∧
    (∀ d : ℚ, d < -30 → pdCut (mkBins defaultDelayDayRanges) d = none) := by
  constructor
  · have hie : rows.isEmpty = false := by
      cases rows with
      | nil => exact absurd rfl hne
      | cons a t => rfl
    have hrun : create_delay_heatmap (mkDOFrame rows) none
        = Except.ok
            (Figure.heatmap (heatZ 5 (binPct (binDelay defaultDelayDayRanges rows))),
              { mkDOFrame rows with
                hasDelayBin := true
                hasPctBin := true
                rows := binPct (binDelay defaultDelayDayRanges rows) }) := by
      simp [create_delay_heatmap, mkDOFrame, deriveDelayDays, hie]
      rfl
    rw [hrun]
    simp only [Except.map, figHeatSum, Except.ok.injEq]
    have hdb : ∀ r ∈ binPct (binDelay defaultDelayDayRanges rows), ∀ k : ℕ,
        r.delay_bin = some k → k < 5 := by
      intro r hr k hk
      rw [binPct, binDelay, List.map_map] at hr
      rcases List.mem_map.mp hr with ⟨s, hs, rfl⟩
      simp only [Function.comp] at hk
      rcases Option.bind_eq_some.mp hk with ⟨d, hd, hpd⟩
      exact delay_bin_lt5 d k hpd
    have hpb : ∀ r ∈ binPct (binDelay defaultDelayDayRanges rows), ∀ k : ℕ,
        r.pct_bin = some k → k < 10 := by
      intro r hr k hk
      rw [binPct, binDelay, List.map_map] at hr
      rcases List.mem_map.mp hr with ⟨s, hs, rfl⟩
      simp only [Function.comp] at hk
      rcases Option.bind_eq_some.mp hk with ⟨p, hp, hpp⟩
      exact pct_bin_lt10 p k hpp
    rw [heatZ_sum 5 _ hdb hpb]
    rw [binPct, binDelay, List.map_map, List.filter_map, List.length_map]
    congr 1
    apply List.filter_congr
    intro r hr
    cases hd : r.delay_days with
    | none => simp [goodRow, Function.comp, hd]
    | some d =>
      cases hp : r.pct with
      | none => simp [goodRow, Function.comp, hd, hp]
      | some p =>
        have hdneg : d < 0 := hneg r hr d hd
        simp [goodRow, Function.comp, hd, hp, delay_bin_isSome_eq, pct_bin_isSome_eq,
          hdneg, le_of_lt hdneg, Bool.and_assoc]
  · intro d hd
    have hns : ¬ (pdCut (mkBins defaultDelayDayRanges) d).isSome = true := by
      rw [delay_bin_isSome]
      rintro ⟨h1, -⟩
      linarith
    exact Option.not_isSome_iff_eq_none.mp hns

theorem heatmap_bin_sum_witness :
    (create_delay_heatmap (mkDOFrame dfMut.rows) none).map (fun p => figHeatSum p.1)
        = Except.ok ((dfMut.rows.filter goodRow).length) ∧
    (∀ d : ℚ, d < -30 → pdCut (mkBins defaultDelayDayRanges) d = none) :=
  heatmap_bin_sum dfMut.rows (by simp [dfMut])
    (by
      intro r hr d hd
      simp only [dfMut, List.mem_singleton] at hr
      subst hr
      simp only [Option.some.injEq] at hd
      rw [← hd]
      norm_num)

theorem frame_effects_amended_witness :
    (create_geo_bubble_map geoFrameW "orders" "All" false 1).2 = geoFrameW ∧
    dfMutPost.hasDelayBin = true ∧ dfMutPost.hasPctBin = true :=
  frame_effects_amended geoFrameW "orders" "All" false 1 dfMut none figMut dfMutPost
    rfl (by simp [dfMut])

end Olist
